import Mathlib

/-
Verification of the Modal deployment `src/modal-deployment.py` of the
SAP endpoint generator.

The deployment consists of four operations over a persistent output store
mounted at `/output`:
  * `generate_endpoint`  (lines 49-163): stages config files, shells out to
    the external generator CLI, parses a session id from its stdout, lists
    the files the CLI produced, and returns a result dictionary;
  * `download_generated_code` (lines 170-198): zips a customer's subtree;
  * `list_customers`     (lines 205-228): lists top-level directories with
    mtime and a recursive `rglob("*")` count, sorted by mtime descending;
  * `api_generate`       (lines 237-267): thin HTTP facade delegating to
    `generate_endpoint`.

The filesystem below `/output` is modelled as a rose tree of named entries;
byte contents are lists of naturals.  The external CLI is an opaque function
parameter: it receives the command line, the staged scratch files and the
child environment, and yields captured output plus the store state left
behind on the volume.  Python `str.split` / `str.strip` are modelled over
`List Char` by structurally recursive functions so that all definitions
evaluate on concrete inputs.
-/

namespace SapAgent

/-- File contents as raw bytes. -/
abbrev Bytes := List Nat

/-- A node of the output-store filesystem: either a regular file with its
content, or a directory with its stat mtime and its named children. -/
inductive FSTree where
  | file (content : Bytes)
  | dir (mtime : Nat) (entries : List (String × FSTree))

/-- The children of the store root `/output` (the mounted volume, which
always exists), as named top-level entries. -/
abbrev Store := List (String × FSTree)

/-- `Path.rglob("*")` on a node: every descendant (files and directories
alike) with its path relative to the node, in depth-first order.  On a
non-directory CPython's glob selector yields nothing. -/
def FSTree.rglobEntries : FSTree → List (List String × FSTree)
  | .file _ => []
  | .dir _ es => go es
where go : List (String × FSTree) → List (List String × FSTree)
  | [] => []
  | (n, t) :: rest =>
      ([n], t) :: (t.rglobEntries.map (fun pt => (n :: pt.1, pt.2))) ++ go rest

/-- Whether a node is a regular file (`Path.is_file`). -/
def FSTree.isFileNode : FSTree → Bool
  | .file _ => true
  | .dir _ _ => false

/-- The regular files of a subtree with their relative paths and contents:
`rglob("*")` filtered by `is_file()`. -/
def rglobFiles (t : FSTree) : List (List String × Bytes) :=
  t.rglobEntries.filterMap (fun pt =>
    match pt.2 with
    | .file c => some (pt.1, c)
    | .dir _ _ => none)

/-- Resolve a relative path inside a subtree. -/
def FSTree.getPath : FSTree → List String → Option FSTree
  | t, [] => some t
  | .file _, _ :: _ => none
  | .dir _ es, n :: p => goFind es n p
where goFind : List (String × FSTree) → String → List String → Option FSTree
  | [], _, _ => none
  | (n', t) :: rest, n, p => if n' = n then t.getPath p else goFind rest n p

/-- Sibling names are distinct at one directory level (true of any real
filesystem directory). -/
def keysNodup : List (String × FSTree) → Bool
  | [] => true
  | (n, _) :: rest => !(rest.any (fun p => p.1 == n)) && keysNodup rest

/-- Well-formed subtree: sibling names are distinct at every level. -/
def FSTree.wfb : FSTree → Bool
  | .file _ => true
  | .dir _ es => keysNodup es && go es
where go : List (String × FSTree) → Bool
  | [] => true
  | (_, t) :: rest => t.wfb && go rest

/-- Total number of entries (files and directories) in a subtree; this is
what `len(list(dir.rglob("*")))` counts. -/
def FSTree.numEntries : FSTree → Nat
  | .file _ => 0
  | .dir _ es => go es
where go : List (String × FSTree) → Nat
  | [] => 0
  | (_, t) :: rest => 1 + t.numEntries + go rest

/-- Number of regular files in a subtree (what the spec calls the recursive
file count). -/
def FSTree.regularFileCount : FSTree → Nat
  | .file _ => 0
  | .dir _ es => go es
where go : List (String × FSTree) → Nat
  | [] => 0
  | (_, .file _) :: rest => 1 + go rest
  | (_, .dir m es) :: rest => (FSTree.dir m es).regularFileCount + go rest

/-- Whether a top-level directory named `n` exists in the store. -/
def dirExistsTop (store : Store) (n : String) : Bool :=
  match store.lookup n with
  | some (.dir _ _) => true
  | _ => false

/-- One element of the `list_customers` response (lines 222-226). -/
structure CustomerRecord where
  name : String
  modified : Nat
  file_count : Nat
deriving DecidableEq

/-- The sort order of `list_customers`
(`sorted(..., key=lambda x: x["modified"], reverse=True)`): most recently
modified first. -/
def mtimeDescBool (a b : CustomerRecord) : Bool := b.modified ≤ a.modified

/-- The loop body of `list_customers` (lines 219-226): one record per
top-level directory, skipping non-directory entries, recording the
directory's mtime and its `rglob("*")` length. -/
def customerRecords : Store → List CustomerRecord
  | [] => []
  | (_, .file _) :: rest => customerRecords rest
  | (n, .dir m es) :: rest =>
      ⟨n, m, (FSTree.dir m es).rglobEntries.length⟩ :: customerRecords rest

/-- `list_customers` (lines 205-228): records for all top-level directories,
sorted by `modified` descending (Python `sorted(..., reverse=True)` is a
stable sort, as is `List.mergeSort`).  The store root is the mounted volume
and always exists, so the `output_dir.exists()` guard is always taken. -/
def list_customers (store : Store) : List CustomerRecord :=
  (customerRecords store).mergeSort mtimeDescBool

/-- `download_generated_code` (lines 170-198): not-found error when
`/output/{customer_name}` does not exist; otherwise the in-memory zip,
modelled as the ordered list of (arcname, bytes) written into it, one entry
per regular file of the subtree with path relative to the customer root
(`rglob` on a non-directory yields nothing, hence an empty archive).  The
function only reads the volume; the returned store is the unchanged input
state. -/
def download_generated_code (store : Store) (customer_name : String) :
    Except String (List (List String × Bytes)) × Store :=
  match store.lookup customer_name with
  | none => (.error ("No generated code found for " ++ customer_name), store)
  | some t => (.ok (rglobFiles t), store)

/-- Python `str.split(sep)` for a nonempty separator, over characters:
non-overlapping leftmost matches, keeping empty pieces.  The fuel is the
input length; each separator match consumes at least one character, so the
fuel never runs out on the recursion path actually taken. -/
def pySplitAux (sep : List Char) : Nat → List Char → List (List Char)
  | _, [] => [[]]
  | 0, s => [s]
  | fuel + 1, c :: cs =>
      if sep.isPrefixOf (c :: cs) then
        [] :: pySplitAux sep fuel (cs.drop (sep.length - 1))
      else
        match pySplitAux sep fuel cs with
        | [] => [[c]]
        | t :: ts => (c :: t) :: ts

/-- Python `str.split(sep)`; `sep` is nonempty in every use below
(Python raises on an empty separator). -/
def pySplit (sep s : List Char) : List (List Char) :=
  if sep.isEmpty then [s] else pySplitAux sep s.length s

/-- Characters removed by Python `str.strip()` (the ASCII whitespace
actually occurring in CLI output). -/
def pyIsSpace (c : Char) : Bool :=
  c = ' ' || c = '\t' || c = '\n' || c = '\r' || c = '\x0b' || c = '\x0c'

/-- Python `str.strip()`. -/
def pyStrip (s : List Char) : List Char :=
  ((s.dropWhile pyIsSpace).reverse.dropWhile pyIsSpace).reverse

/-- Whether `sep` occurs as a contiguous subsequence (`sep in line`). -/
def containsSeq (sep : List Char) : List Char → Bool
  | [] => sep.isEmpty
  | c :: cs => sep.isPrefixOf (c :: cs) || containsSeq sep cs

/-- The stdout marker preceding the session identifier (line 139). -/
def sessionMarker : List Char := "Session ID:".toList

/-- `"Session ID:" in line` (line 139). -/
def lineHasMarker (l : List Char) : Bool := containsSeq sessionMarker l

/-- `line.split("Session ID:")[-1].strip()` (line 140). -/
def afterMarker (l : List Char) : String :=
  String.mk (pyStrip ((pySplit sessionMarker l).getLastD []))

/-- The `for line in ...: if ...: break` scan (lines 138-141): the first
line containing the marker. -/
def findMarkerLine : List (List Char) → Option (List Char)
  | [] => none
  | l :: ls => if lineHasMarker l then some l else findMarkerLine ls

/-- Session-id extraction from captured stdout (lines 136-141):
`None` unless some line of `stdout.split("\n")` contains `"Session ID:"`;
otherwise the stripped text after the marker on the first such line. -/
def parseSessionId (stdout : String) : Option String :=
  (findMarkerLine (pySplit ['\n'] stdout.toList)).map afterMarker

/-- A generation request: the parameters of `generate_endpoint`
(lines 49-58).  The Python `dict[str, str]` arguments are insertion-ordered
association lists. -/
structure GenRequest where
  customer_name : String
  sap_version : String
  config_files_content : List (String × String)
  quote_fields : List String
  custom_fields : Option (List (String × String))
  special_logic : Option String
  resume_session_id : Option String
  fork_session : Bool

/-- Python truthiness of an optional string (`if special_logic:`,
`if resume_session_id:`): false for `None` and for the empty string. -/
def truthyStrOpt : Option String → Bool
  | none => false
  | some s => !(s == "")

/-- Python truthiness of an optional dict (`if custom_fields:`): false for
`None` and for an empty mapping. -/
def truthyDictOpt : Option (List (String × String)) → Bool
  | none => false
  | some m => !m.isEmpty

/-- A minimal model of `json.dumps` string escaping. -/
def jsonEscape (s : String) : String :=
  String.mk (s.toList.flatMap (fun c =>
    if c = '\\' then ['\\', '\\'] else if c = '"' then ['\\', '"'] else [c]))

/-- `json.dumps(custom_fields)` (line 112). -/
def jsonDumps (m : List (String × String)) : String :=
  "\x7b" ++ String.intercalate ", "
      (m.map (fun kv => "\"" ++ jsonEscape kv.1 ++ "\": \"" ++ jsonEscape kv.2 ++ "\""))
    ++ "\x7d"

/-- The files written into the invocation-scoped scratch directory
(lines 85-96): `{temp_dir}/config/{filename}` with the mapping's content,
one file per entry, paths as components. -/
def stagedConfigFiles (tempDir : String) (cfg : List (String × String)) :
    List (List String × String) :=
  cfg.map (fun nc => ([tempDir, "config", nc.1], nc.2))

/-- The `--config-files` arguments: `str(config_dir / filename)`
(lines 92-96). -/
def configPathStrings (tempDir : String) (cfg : List (String × String)) :
    List String :=
  cfg.map (fun nc => tempDir ++ "/config/" ++ nc.1)

/-- The CLI argument list built at lines 99-120. -/
def buildCmd (tempDir : String) (req : GenRequest) : List String :=
  ["node", "/app/dist/cli.js", "quote",
   "--customer", req.customer_name,
   "--sap-version", req.sap_version,
   "--config-files"] ++ configPathStrings tempDir req.config_files_content ++
  ["--output", "/output", "--fields"] ++ req.quote_fields ++
  (if truthyDictOpt req.custom_fields then
     ["--custom-fields", jsonDumps (req.custom_fields.getD [])] else []) ++
  (if truthyStrOpt req.special_logic then
     ["--special-logic", req.special_logic.getD ""] else []) ++
  (if truthyStrOpt req.resume_session_id then
     ["--resume", req.resume_session_id.getD ""] ++
       (if req.fork_session then ["--fork"] else [])
   else [])

/-- The captured outcome of `subprocess.run` (lines 126-134). -/
structure SubprocResult where
  stdout : String
  stderr : String
  returncode : Int

/-- The environment handed to the child process (lines 130-133):
`{**os.environ, "ANTHROPIC_API_KEY": key}`. -/
def childEnv (env : List (String × String)) (key : String) :
    List (String × String) :=
  env ++ [("ANTHROPIC_API_KEY", key)]

/-- The external generator CLI as an opaque collaborator: from the command
line, the staged scratch files and the child environment it produces
captured stdout/stderr/exit code and leaves the volume in some state. -/
abbrev CliRun :=
  List String → List (List String × String) → List (String × String) →
    SubprocResult × Store

/-- The result dictionary returned at lines 156-163. -/
structure GenResult where
  session_id : Option String
  output_dir : String
  files : List String
  stdout : String
  stderr : String
  exit_code : Int
deriving DecidableEq

/-- The post-run file scan (lines 143-151): all regular files below
`/output/{customer_name}`, as `str(f.relative_to("/output"))` — i.e. paths
prefixed with the customer name.  Nothing if that path does not exist, and
`rglob` on a non-directory yields nothing. -/
def listGeneratedFiles (storeAfter : Store) (customer_name : String) :
    List String :=
  match storeAfter.lookup customer_name with
  | none => []
  | some t =>
      (rglobFiles t).map (fun pc => String.intercalate "/" (customer_name :: pc.1))

/-- `generate_endpoint` (lines 49-163).  `tempDir` is the invocation-scoped
scratch directory name chosen by `tempfile.TemporaryDirectory`; `env` is
`os.environ`; `run` is the external CLI.  `os.environ["ANTHROPIC_API_KEY"]`
raises `KeyError` if the key is absent (modelled as the error case); the
subprocess's exit code is never inspected.  `volume.commit()` publishes the
store state the CLI left behind, returned alongside the result. -/
def generate_endpoint (tempDir : String) (env : List (String × String))
    (run : CliRun) (req : GenRequest) :
    Except String (GenResult × Store) :=
  match env.lookup "ANTHROPIC_API_KEY" with
  | none => .error "KeyError: ANTHROPIC_API_KEY"
  | some key =>
      let scratch := stagedConfigFiles tempDir req.config_files_content
      let cmd := buildCmd tempDir req
      let out := run cmd scratch (childEnv env key)
      .ok ({ session_id := parseSessionId out.1.stdout,
             output_dir := "/output/" ++ req.customer_name,
             files := listGeneratedFiles out.2 req.customer_name,
             stdout := out.1.stdout,
             stderr := out.1.stderr,
             exit_code := out.1.returncode }, out.2)

/-- A JSON value of the inbound POST body. -/
inductive JVal where
  | null
  | bool (b : Bool)
  | str (s : String)
  | num (n : Int)
  | arr (elems : List JVal)
  | obj (fields : List (String × JVal))

/-- The keyword arguments `api_generate` passes to
`generate_endpoint.remote` (lines 256-264), still as raw JSON values:
the facade performs no conversion or validation. -/
structure ApiCallArgs where
  customer_name : JVal
  sap_version : JVal
  config_files_content : JVal
  quote_fields : JVal
  custom_fields : Option JVal
  special_logic : Option JVal
  resume_session_id : Option JVal
  fork_session : JVal

/-- `api_generate` (lines 237-267): reads the four required keys with
`item[...]` (a missing one raises `KeyError`, checked in source order),
reads the optional keys with `item.get(...)` (`None` when absent) and
`item.get("fork_session", False)`, delegates to the remote invoker — an
opaque parameter here — and returns its result unchanged. -/
def api_generate {R : Type} (invoke : ApiCallArgs → R)
    (item : List (String × JVal)) : Except String R :=
  match item.lookup "customer_name" with
  | none => .error "KeyError: customer_name"
  | some cn =>
  match item.lookup "sap_version" with
  | none => .error "KeyError: sap_version"
  | some sv =>
  match item.lookup "config_files" with
  | none => .error "KeyError: config_files"
  | some cf =>
  match item.lookup "quote_fields" with
  | none => .error "KeyError: quote_fields"
  | some qf =>
      .ok (invoke
        { customer_name := cn,
          sap_version := sv,
          config_files_content := cf,
          quote_fields := qf,
          custom_fields := item.lookup "custom_fields",
          special_logic := item.lookup "special_logic",
          resume_session_id := item.lookup "resume_session_id",
          fork_session := (item.lookup "fork_session").getD (.bool false) })

/-! Concrete states used by the witness and counterexample theorems. -/

/-- A store whose only top-level entry named `acme` is a regular file, not a
directory. -/
def exStore2 : Store := [("acme", .file [7])]

/-- A customer tree containing one subdirectory with one file inside. -/
def exTree3 : FSTree := .dir 5 [("sub", .dir 3 [("f", .file [1])])]

/-- A store holding `exTree3` under `acme`. -/
def exStore3 : Store := [("acme", exTree3)]

/-- External-CLI behaviour used to witness C1: nonzero exit code, a session
line on stdout, one generated file on the volume. -/
def exRun1 : CliRun :=
  fun _ _ _ =>
    (⟨"Session ID: s1\n", "boom", 1⟩,
     [("acme", .dir 4 [("main.js", .file [1, 2])])])

/-- A minimal generation request for the witnesses. -/
def exReq1 : GenRequest :=
  ⟨"acme", "ECC6", [("cfg.txt", "X")], ["f1"], none, none, none, false⟩

/-- An environment carrying the provider API key. -/
def exEnv1 : List (String × String) := [("ANTHROPIC_API_KEY", "k")]

/-- A store with one directory and one stray top-level regular file. -/
def exStore5 : Store := [("acme", .dir 5 []), ("x", .file [2])]

/-- Children of the customer tree used to witness C4: a subdirectory with
a file, plus a top-level file. -/
def exEs4 : List (String × FSTree) :=
  [("src", .dir 2 [("a.js", .file [10])]), ("readme.md", .file [3])]

/-- A store holding the C4 witness tree under `acme`. -/
def exStore4 : Store := [("acme", .dir 7 exEs4)]

/-- A complete HTTP request body with the four required keys. -/
def exItemFull : List (String × JVal) :=
  [("customer_name", .str "acme"), ("sap_version", .str "ECC6"),
   ("config_files", .obj [("a.txt", .str "A")]),
   ("quote_fields", .arr [.str "f1"])]

/-- An HTTP request body missing `sap_version`, `config_files` and
`quote_fields`. -/
def exItemMissing : List (String × JVal) := [("customer_name", .str "acme")]

/-! Claim theorems. -/

/-- C1: for every exit code of the external CLI (zero or nonzero),
`generate_endpoint` returns a result with all six fields populated —
session id parsed from stdout (possibly null), output directory path,
relative file list, captured stdout and stderr, and the exit code itself —
and never raises on account of a nonzero exit code; the only failure mode
is a missing API key, excluded by the hypothesis. -/
theorem C1_generate_endpoint_result_for_all_exit_codes
    (tempDir : String) (env : List (String × String)) (key : String)
    (run : CliRun) (req : GenRequest)
    (hkey : env.lookup "ANTHROPIC_API_KEY" = some key) :
    generate_endpoint tempDir env run req =
      .ok ({ session_id := parseSessionId
               (run (buildCmd tempDir req)
                 (stagedConfigFiles tempDir req.config_files_content)
                 (childEnv env key)).1.stdout,
             output_dir := "/output/" ++ req.customer_name,
             files := listGeneratedFiles
               (run (buildCmd tempDir req)
                 (stagedConfigFiles tempDir req.config_files_content)
                 (childEnv env key)).2 req.customer_name,
             stdout := (run (buildCmd tempDir req)
                 (stagedConfigFiles tempDir req.config_files_content)
                 (childEnv env key)).1.stdout,
             stderr := (run (buildCmd tempDir req)
                 (stagedConfigFiles tempDir req.config_files_content)
                 (childEnv env key)).1.stderr,
             exit_code := (run (buildCmd tempDir req)
                 (stagedConfigFiles tempDir req.config_files_content)
                 (childEnv env key)).1.returncode },
           (run (buildCmd tempDir req)
             (stagedConfigFiles tempDir req.config_files_content)
             (childEnv env key)).2) := by
  simp [generate_endpoint, hkey]

/-- C1 witness: a CLI run exiting with code 1 still yields a fully
populated result, with the nonzero exit code surfaced as data. -/
theorem C1_witness :
    generate_endpoint "td" exEnv1 exRun1 exReq1 =
      .ok ({ session_id := some "s1",
             output_dir := "/output/acme",
             files := ["acme/main.js"],
             stdout := "Session ID: s1\n",
             stderr := "boom",
             exit_code := 1 },
           [("acme", .dir 4 [("main.js", .file [1, 2])])]) :=
  (C1_generate_endpoint_result_for_all_exit_codes "td" exEnv1 "k" exRun1
    exReq1 rfl).trans rfl

/-- C2 counterexample: in a store whose `acme` entry is a regular file, the
output subdirectory `/output/acme` does not exist, yet
`download_generated_code` does not fail with not-found — it returns an
empty archive, because `Path.exists()` is true for the file and `rglob` on
a non-directory yields nothing. -/
theorem C2_counterexample :
    dirExistsTop exStore2 "acme" = false ∧
    download_generated_code exStore2 "acme" = (.ok [], exStore2) :=
  ⟨rfl, rfl⟩

/-- C2 amended: `download_generated_code` fails with not-found exactly when
no top-level entry of any kind named after the customer exists (so a
regular file at that path yields an empty archive instead of not-found),
and for every customer name it performs no writes to the output store. -/
theorem C2_download_not_found_amended (store : Store) (c : String) :
    (download_generated_code store c).2 = store ∧
    ((∃ e, (download_generated_code store c).1 = .error e) ↔
      store.lookup c = none) ∧
    (∀ cont, store.lookup c = some (.file cont) →
      (download_generated_code store c).1 = .ok []) := by
  refine ⟨?_, ⟨?_, ?_⟩, ?_⟩
  · cases h : store.lookup c <;> simp [download_generated_code, h]
  · intro ⟨e, he⟩
    cases h : store.lookup c with
    | none => rfl
    | some t => simp [download_generated_code, h] at he
  · intro h
    exact ⟨"No generated code found for " ++ c,
      by simp [download_generated_code, h]⟩
  · intro cont h
    simp [download_generated_code, h, rglobFiles, FSTree.rglobEntries]

/-- C2 witness: a customer with no entry at all gets the not-found error
and the store is untouched. -/
theorem C2_witness :
    (download_generated_code exStore2 "ghost").2 = exStore2 ∧
    (∃ e, (download_generated_code exStore2 "ghost").1 = .error e) :=
  ⟨(C2_download_not_found_amended exStore2 "ghost").1,
   (C2_download_not_found_amended exStore2 "ghost").2.1.mpr rfl⟩

/-- C8: the HTTP facade raises an unhandled lookup failure when any of the
four required keys is missing; when all are present it delegates to the
invoker with `fork_session` defaulting to `False`, the other optional
fields defaulting to `None`, and returns the invoker's result unchanged. -/
theorem C8_api_facade {R : Type} (invoke : ApiCallArgs → R)
    (item : List (String × JVal)) :
    ((item.lookup "customer_name" = none ∨ item.lookup "sap_version" = none ∨
      item.lookup "config_files" = none ∨ item.lookup "quote_fields" = none) →
      ∃ e, api_generate invoke item = .error e) ∧
    (∀ cn sv cf qf,
      item.lookup "customer_name" = some cn →
      item.lookup "sap_version" = some sv →
      item.lookup "config_files" = some cf →
      item.lookup "quote_fields" = some qf →
      api_generate invoke item = .ok (invoke
        { customer_name := cn, sap_version := sv, config_files_content := cf,
          quote_fields := qf,
          custom_fields := item.lookup "custom_fields",
          special_logic := item.lookup "special_logic",
          resume_session_id := item.lookup "resume_session_id",
          fork_session := (item.lookup "fork_session").getD (.bool false) })) := by
  constructor
  · intro h
    cases h1 : item.lookup "customer_name" with
    | none => exact ⟨"KeyError: customer_name", by simp [api_generate, h1]⟩
    | some cn =>
      cases h2 : item.lookup "sap_version" with
      | none => exact ⟨"KeyError: sap_version", by simp [api_generate, h1, h2]⟩
      | some sv =>
        cases h3 : item.lookup "config_files" with
        | none =>
            exact ⟨"KeyError: config_files", by simp [api_generate, h1, h2, h3]⟩
        | some cf =>
          cases h4 : item.lookup "quote_fields" with
          | none =>
              exact ⟨"KeyError: quote_fields",
                by simp [api_generate, h1, h2, h3, h4]⟩
          | some qf => rcases h with h | h | h | h <;> simp_all
  · intro cn sv cf qf h1 h2 h3 h4
    simp [api_generate, h1, h2, h3, h4]

/-- C8 witness: a body missing `sap_version` raises a lookup failure; a
complete body is delegated and the invoker's result is returned unchanged. -/
theorem C8_witness :
    (∃ e, api_generate (fun _ => (37 : Nat)) exItemMissing = .error e) ∧
    api_generate (fun _ => (37 : Nat)) exItemFull = .ok 37 :=
  ⟨(C8_api_facade (fun _ => 37) exItemMissing).1 (Or.inr (Or.inl rfl)),
   (C8_api_facade (fun _ => 37) exItemFull).2 _ _ _ _ rfl rfl rfl rfl⟩

/-- C9: `--fork` is appended to the CLI command exactly when
`resume_session_id` is a non-null, non-empty string and `fork_session` is
true; in particular with no resume session, `fork_session := true` builds
the very same command as `fork_session := false`. -/
theorem C9_fork_flag (td : String) (req : GenRequest) :
    buildCmd td req =
      buildCmd td { req with fork_session := false } ++
        (if truthyStrOpt req.resume_session_id && req.fork_session
         then ["--fork"] else []) ∧
    buildCmd td { req with resume_session_id := none, fork_session := true } =
      buildCmd td { req with resume_session_id := none, fork_session := false } := by
  constructor
  · cases hr : truthyStrOpt req.resume_session_id <;>
      cases hf : req.fork_session <;> simp [buildCmd, hr, hf]
  · simp [buildCmd, truthyStrOpt]

/-- C10: optional parameters are tested for truthiness, not presence — an
empty `custom_fields` mapping or an empty `special_logic` string produces
exactly the CLI command built for null. -/
theorem C10_truthiness_of_optionals (td : String) (req : GenRequest) :
    buildCmd td { req with custom_fields := some [] } =
      buildCmd td { req with custom_fields := none } ∧
    buildCmd td { req with special_logic := some "" } =
      buildCmd td { req with special_logic := none } := by
  constructor <;> simp [buildCmd, truthyDictOpt, truthyStrOpt]

/-! Helper lemmas about the session-id scan. -/

theorem findMarkerLine_eq_none {ls : List (List Char)}
    (h : ∀ l ∈ ls, lineHasMarker l = false) : findMarkerLine ls = none := by
  induction ls with
  | nil => rfl
  | cons l ls ih =>
      simp [findMarkerLine, h l (by simp),
        ih (fun l' hl' => h l' (by simp [hl']))]

theorem findMarkerLine_first (ls₁ : List (List Char)) (l : List Char)
    (ls₂ : List (List Char)) (h₁ : ∀ l' ∈ ls₁, lineHasMarker l' = false)
    (hl : lineHasMarker l = true) :
    findMarkerLine (ls₁ ++ l :: ls₂) = some l := by
  induction ls₁ with
  | nil => simp [findMarkerLine, hl]
  | cons a as ih =>
      simp only [List.cons_append, findMarkerLine, h₁ a (by simp)]
      simpa using ih (fun l' hl' => h₁ l' (by simp [hl']))

/-- C6: if no line of the subprocess stdout contains `"Session ID:"`, the
session id is null; otherwise it is the stripped text following the marker
on the first line containing it. -/
theorem C6_session_id_extraction (stdout : String) :
    ((∀ l ∈ pySplit ['\n'] stdout.toList, lineHasMarker l = false) →
      parseSessionId stdout = none) ∧
    (∀ ls₁ l ls₂, pySplit ['\n'] stdout.toList = ls₁ ++ l :: ls₂ →
      (∀ l' ∈ ls₁, lineHasMarker l' = false) → lineHasMarker l = true →
      parseSessionId stdout = some (afterMarker l)) := by
  constructor
  · intro h
    unfold parseSessionId
    rw [findMarkerLine_eq_none h]
    rfl
  · intro ls₁ l ls₂ hsplit h₁ hl
    unfold parseSessionId
    rw [hsplit, findMarkerLine_first ls₁ l ls₂ h₁ hl]
    rfl

/-- C6 witness: stdout whose second line is `"Session ID: abc123"` yields
`session_id = "abc123"`, and stdout without the marker yields null. -/
theorem C6_witness :
    parseSessionId "ok\nSession ID: abc123\ntail" = some "abc123" ∧
    parseSessionId "no marker here" = none := by
  constructor
  · have h := (C6_session_id_extraction "ok\nSession ID: abc123\ntail").2
      ["ok".toList] "Session ID: abc123".toList ["tail".toList]
      (by decide) (by decide) (by decide)
    exact h.trans (by decide)
  · exact (C6_session_id_extraction "no marker here").1 (by decide)

/-! Helper lemmas about `customerRecords` and the sort. -/

theorem mem_customerRecords {store : Store} {r : CustomerRecord} :
    r ∈ customerRecords store ↔
      ∃ m es, (r.name, FSTree.dir m es) ∈ store ∧ r.modified = m ∧
        r.file_count = (FSTree.dir m es).rglobEntries.length := by
  induction store with
  | nil => simp [customerRecords]
  | cons hd tl ih =>
    obtain ⟨n, t⟩ := hd
    cases t with
    | file c =>
        simp only [customerRecords, ih, List.mem_cons, Prod.mk.injEq]
        constructor
        · rintro ⟨m, es, hmem, hm, hf⟩
          exact ⟨m, es, Or.inr hmem, hm, hf⟩
        · rintro ⟨m, es, heq | hmem, hm, hf⟩
          · exact absurd heq.2 (by simp)
          · exact ⟨m, es, hmem, hm, hf⟩
    | dir m es =>
        simp only [customerRecords, ih, List.mem_cons, Prod.mk.injEq]
        constructor
        · rintro (rfl | ⟨m', es', hmem, hm, hf⟩)
          · exact ⟨m, es, Or.inl ⟨rfl, rfl⟩, rfl, rfl⟩
          · exact ⟨m', es', Or.inr hmem, hm, hf⟩
        · rintro ⟨m', es', ⟨hn, hdir⟩ | hmem, hm, hf⟩
          · left
            obtain ⟨rfl, rfl⟩ : m' = m ∧ es' = es := by
              simpa [FSTree.dir.injEq] using hdir
            obtain ⟨r1, r2, r3⟩ := r
            simp_all
          · exact Or.inr ⟨m', es', hmem, hm, hf⟩

theorem customerRecords_length (store : Store) :
    (customerRecords store).length =
      store.countP (fun nt => !nt.2.isFileNode) := by
  induction store with
  | nil => rfl
  | cons hd tl ih =>
    obtain ⟨n, t⟩ := hd
    cases t <;> simp [customerRecords, List.countP_cons, FSTree.isFileNode, ih]

theorem mtimeDescBool_trans (a b c : CustomerRecord)
    (h₁ : mtimeDescBool a b = true) (h₂ : mtimeDescBool b c = true) :
    mtimeDescBool a c = true := by
  simp [mtimeDescBool] at *
  omega

theorem mtimeDescBool_total (a b : CustomerRecord) :
    (mtimeDescBool a b || mtimeDescBool b a) = true := by
  simp [mtimeDescBool]
  omega

/-- C5: for every state of the output store, `list_customers` returns
exactly the records of the top-level directories — one per directory,
non-directory entries excluded and nothing else filtered — sorted by
modification time, most recent first (ties in either order). -/
theorem C5_list_customers_sorted_complete (store : Store) :
    (list_customers store).Perm (customerRecords store) ∧
    List.Pairwise (fun a b : CustomerRecord => b.modified ≤ a.modified)
      (list_customers store) ∧
    (∀ r : CustomerRecord, r ∈ list_customers store ↔
      ∃ m es, (r.name, FSTree.dir m es) ∈ store ∧ r.modified = m ∧
        r.file_count = (FSTree.dir m es).rglobEntries.length) ∧
    (list_customers store).length =
      store.countP (fun nt => !nt.2.isFileNode) := by
  have hperm : (list_customers store).Perm (customerRecords store) :=
    List.mergeSort_perm (customerRecords store) mtimeDescBool
  refine ⟨hperm, ?_, ?_, ?_⟩
  · have hs := List.sorted_mergeSort mtimeDescBool_trans mtimeDescBool_total
      (customerRecords store)
    exact hs.imp (fun h => by simpa [mtimeDescBool] using h)
  · intro r
    rw [hperm.mem_iff]
    exact mem_customerRecords
  · rw [hperm.length_eq]
    exact customerRecords_length store

/-- C5 witness: in a store with directory `acme` (mtime 5) and a stray
top-level file `x`, the listing contains the `acme` record and no record
named `x`. -/
theorem C5_witness :
    (⟨"acme", 5, 0⟩ : CustomerRecord) ∈ list_customers exStore5 ∧
    ¬ ∃ r : CustomerRecord, r ∈ list_customers exStore5 ∧ r.name = "x" := by
  constructor
  · exact ((C5_list_customers_sorted_complete exStore5).2.2.1 _).mpr
      ⟨5, [], by simp [exStore5], rfl, rfl⟩
  · rintro ⟨r, hr, hname⟩
    obtain ⟨m, es, hmem, -, -⟩ :=
      ((C5_list_customers_sorted_complete exStore5).2.2.1 r).mp hr
    rw [hname] at hmem
    simp [exStore5] at hmem

/-! Helper lemmas equating the `rglob("*")` length with the structural
entry count. -/

theorem FSTree.inductionOn (P : FSTree → Prop)
    (hf : ∀ c, P (.file c))
    (hd : ∀ m es, (∀ p ∈ es, P p.2) → P (.dir m es)) :
    ∀ t, P t
  | .file c => hf c
  | .dir m es => hd m es (fun p hp => FSTree.inductionOn P hf hd p.2)
termination_by t => sizeOf t
decreasing_by
  have h1 := List.sizeOf_lt_of_mem hp
  simp only [FSTree.dir.sizeOf_spec]
  cases p with
  | mk n t => simp_all; omega

theorem rglob_go_length (es : List (String × FSTree))
    (ih : ∀ p ∈ es, p.2.rglobEntries.length = p.2.numEntries) :
    (FSTree.rglobEntries.go es).length = FSTree.numEntries.go es := by
  induction es with
  | nil => rfl
  | cons hd tl iht =>
    obtain ⟨n, t⟩ := hd
    have h1 : t.rglobEntries.length = t.numEntries := ih (n, t) (by simp)
    have h2 := iht (fun p hp => ih p (by simp [hp]))
    simp [FSTree.rglobEntries.go, FSTree.numEntries.go, h1, h2]
    omega

theorem FSTree.rglobEntries_length :
    ∀ t : FSTree, t.rglobEntries.length = t.numEntries :=
  FSTree.inductionOn _ (fun _ => rfl) (fun m es ih => by
    simpa [FSTree.rglobEntries, FSTree.numEntries] using rglob_go_length es ih)

/-- C3 counterexample: for a customer directory holding one subdirectory
with a single file inside, `list_customers` reports `file_count = 2`
(the subdirectory is counted) while the recursive count of regular files
is 1 — so the reported count is not the number of regular files. -/
theorem C3_counterexample :
    ∃ r ∈ list_customers exStore3, r.name = "acme" ∧
      ("acme", exTree3) ∈ exStore3 ∧ r.file_count = 2 ∧
      exTree3.regularFileCount = 1 ∧
      r.file_count ≠ exTree3.regularFileCount := by
  have hperm := List.mergeSort_perm (customerRecords exStore3) mtimeDescBool
  have hcr : customerRecords exStore3 = [⟨"acme", 5, 2⟩] := rfl
  rw [hcr] at hperm
  have hlist : list_customers exStore3 = [⟨"acme", 5, 2⟩] :=
    List.perm_singleton.mp hperm
  exact ⟨⟨"acme", 5, 2⟩, by simp [hlist], rfl, by simp [exStore3], rfl, rfl,
    by decide⟩

/-- C3 amended: for every customer directory in the output store, the
`file_count` reported by `list_customers` equals the recursive count of
ALL entries — files and subdirectories — under that directory (the code
counts `rglob("*")` without an `is_file` filter). -/
theorem C3_file_count_amended (store : Store) (r : CustomerRecord)
    (hr : r ∈ list_customers store) :
    ∃ m es, (r.name, FSTree.dir m es) ∈ store ∧
      r.file_count = (FSTree.dir m es).numEntries := by
  have hmem : r ∈ customerRecords store :=
    (List.mergeSort_perm (customerRecords store) mtimeDescBool).mem_iff.mp hr
  obtain ⟨m, es, hmem', hm, hf⟩ := mem_customerRecords.mp hmem
  exact ⟨m, es, hmem', by rw [hf, FSTree.rglobEntries_length]⟩

/-- C3 witness: the record reported for `acme` carries `file_count = 2`,
the total entry count of its tree. -/
theorem C3_witness :
    ∃ m es, ("acme", FSTree.dir m es) ∈ exStore3 ∧
      (2 : Nat) = (FSTree.dir m es).numEntries := by
  have hperm := List.mergeSort_perm (customerRecords exStore3) mtimeDescBool
  have hcr : customerRecords exStore3 = [⟨"acme", 5, 2⟩] := rfl
  rw [hcr] at hperm
  have hlist : list_customers exStore3 = [⟨"acme", 5, 2⟩] :=
    List.perm_singleton.mp hperm
  have h := C3_file_count_amended exStore3 ⟨"acme", 5, 2⟩ (by simp [hlist])
  simpa using h

/-- C7: config staging produces exactly one scratch file per mapping entry,
at `{temp_dir}/config/{filename}` with byte-identical content, and staged
paths of invocations with distinct scratch directories never collide. -/
theorem C7_config_staging (td : String) (cfg : List (String × String)) :
    (stagedConfigFiles td cfg).length = cfg.length ∧
    (∀ n c, (n, c) ∈ cfg → ([td, "config", n], c) ∈ stagedConfigFiles td cfg) ∧
    (∀ p c, (p, c) ∈ stagedConfigFiles td cfg →
      ∃ n, p = [td, "config", n] ∧ (n, c) ∈ cfg) ∧
    (∀ td' (cfg' : List (String × String)) p c c', td ≠ td' →
      (p, c) ∈ stagedConfigFiles td cfg →
      (p, c') ∈ stagedConfigFiles td' cfg' → False) := by
  refine ⟨by simp [stagedConfigFiles], ?_, ?_, ?_⟩
  · intro n c h
    exact List.mem_map.mpr ⟨(n, c), h, rfl⟩
  · intro p c h
    obtain ⟨⟨n, d⟩, hm, heq⟩ := List.mem_map.mp h
    injection heq with hp hc
    obtain rfl : d = c := hc
    exact ⟨n, hp.symm, hm⟩
  · intro td' cfg' p c c' hne h1 h2
    obtain ⟨⟨n1, d1⟩, -, he1⟩ := List.mem_map.mp h1
    obtain ⟨⟨n2, d2⟩, -, he2⟩ := List.mem_map.mp h2
    injection he1 with hp1 hc1
    injection he2 with hp2 hc2
    rw [← hp1] at hp2
    have : td = td' ∧ n1 = n2 := by simpa using hp2.symm
    exact hne this.1

/-- C7 witness: one mapping entry stages one file with identical content,
and the same entry staged under a different scratch directory lands at a
different path. -/
theorem C7_witness :
    (stagedConfigFiles "tmp1" [("a.txt", "A")]).length = 1 ∧
    (["tmp1", "config", "a.txt"], "A") ∈ stagedConfigFiles "tmp1" [("a.txt", "A")] ∧
    ¬ (["tmp1", "config", "a.txt"], "A") ∈ stagedConfigFiles "tmp2" [("a.txt", "A")] := by
  have h := C7_config_staging "tmp1" [("a.txt", "A")]
  refine ⟨h.1, h.2.1 "a.txt" "A" (by simp), fun hmem => ?_⟩
  exact h.2.2.2 "tmp2" [("a.txt", "A")] _ "A" "A" (by decide)
    (h.2.1 "a.txt" "A" (by simp)) hmem

/-! Helper lemmas for the archive round trip: membership in the `rglob`
enumeration versus path resolution. -/

theorem mem_rglob_go {es : List (String × FSTree)} {p : List String}
    {t' : FSTree} :
    (p, t') ∈ FSTree.rglobEntries.go es ↔
      ∃ n t, (n, t) ∈ es ∧
        ((p = [n] ∧ t' = t) ∨
          ∃ p', p = n :: p' ∧ (p', t') ∈ t.rglobEntries) := by
  induction es with
  | nil => simp [FSTree.rglobEntries.go]
  | cons hd tl ih =>
    obtain ⟨n0, t0⟩ := hd
    rw [show FSTree.rglobEntries.go ((n0, t0) :: tl) =
          ([n0], t0) :: (t0.rglobEntries.map (fun pt => (n0 :: pt.1, pt.2)))
            ++ FSTree.rglobEntries.go tl from rfl]
    constructor
    · intro h
      rcases List.mem_cons.mp h with heq | h2
      · injection heq with hp ht
        exact ⟨n0, t0, List.mem_cons_self .., Or.inl ⟨hp, ht⟩⟩
      · rcases List.mem_append.mp h2 with h3 | h4
        · obtain ⟨⟨q, t''⟩, hq, heq⟩ := List.mem_map.mp h3
          injection heq with hp ht
          exact ⟨n0, t0, List.mem_cons_self ..,
            Or.inr ⟨q, hp.symm, ht ▸ hq⟩⟩
        · obtain ⟨n, t, hmem, hrest⟩ := ih.mp h4
          exact ⟨n, t, List.mem_cons_of_mem _ hmem, hrest⟩
    · rintro ⟨n, t, hmem, hrest⟩
      rcases List.mem_cons.mp hmem with heq | hmem'
      · injection heq with hn ht
        subst hn
        subst ht
        rcases hrest with ⟨hp, ht'⟩ | ⟨p', hp, hp'⟩
        · exact List.mem_cons.mpr (Or.inl (by rw [hp, ht']))
        · refine List.mem_cons.mpr (Or.inr (List.mem_append.mpr (Or.inl ?_)))
          exact List.mem_map.mpr ⟨(p', t'), hp', by rw [hp]⟩
      · exact List.mem_cons.mpr (Or.inr (List.mem_append.mpr
          (Or.inr (ih.mpr ⟨n, t, hmem', hrest⟩))))

theorem mem_rglobFiles_iff_entries {t : FSTree} {p : List String} {c : Bytes} :
    (p, c) ∈ rglobFiles t ↔ (p, FSTree.file c) ∈ t.rglobEntries := by
  simp only [rglobFiles, List.mem_filterMap]
  constructor
  · rintro ⟨⟨q, t'⟩, hmem, heq⟩
    cases t' with
    | file d =>
        simp only [Option.some.injEq, Prod.mk.injEq] at heq
        obtain ⟨rfl, rfl⟩ := heq
        exact hmem
    | dir _ _ => simp at heq
  · intro h
    exact ⟨(p, .file c), h, rfl⟩

theorem goFind_of_lookup_some :
    ∀ {es : List (String × FSTree)} {n : String} {t : FSTree},
      es.lookup n = some t → ∀ p, FSTree.getPath.goFind es n p = t.getPath p := by
  intro es
  induction es with
  | nil => intro n t h p; simp [List.lookup] at h
  | cons hd tl ih =>
    intro n t h p
    obtain ⟨n', t'⟩ := hd
    by_cases hn : n' = n
    · subst hn
      simp only [List.lookup, beq_self_eq_true] at h
      obtain rfl : t' = t := by simpa using h
      simp [FSTree.getPath.goFind]
    · have hne : (n == n') = false := by
        simpa using fun heq => hn heq.symm
      simp only [List.lookup, hne] at h
      simpa [FSTree.getPath.goFind, hn] using ih h p

theorem goFind_of_lookup_none :
    ∀ {es : List (String × FSTree)} {n : String},
      es.lookup n = none → ∀ p, FSTree.getPath.goFind es n p = none := by
  intro es
  induction es with
  | nil => intro n _ p; rfl
  | cons hd tl ih =>
    intro n h p
    obtain ⟨n', t'⟩ := hd
    by_cases hn : n' = n
    · subst hn
      simp [List.lookup, beq_self_eq_true] at h
    · have hne : (n == n') = false := by
        simpa using fun heq => hn heq.symm
      simp only [List.lookup, hne] at h
      simpa [FSTree.getPath.goFind, hn] using ih h p

theorem mem_of_lookup_eq_some :
    ∀ {es : List (String × FSTree)} {n : String} {t : FSTree},
      es.lookup n = some t → (n, t) ∈ es := by
  intro es
  induction es with
  | nil => intro n t h; simp [List.lookup] at h
  | cons hd tl ih =>
    intro n t h
    obtain ⟨n', t'⟩ := hd
    by_cases hn : n' = n
    · subst hn
      simp only [List.lookup, beq_self_eq_true] at h
      obtain rfl : t' = t := by simpa using h
      exact List.mem_cons_self ..
    · have hne : (n == n') = false := by
        simpa using fun heq => hn heq.symm
      simp only [List.lookup, hne] at h
      exact List.mem_cons_of_mem _ (ih h)

theorem lookup_eq_some_of_mem_nodup :
    ∀ {es : List (String × FSTree)} {n : String} {t : FSTree},
      keysNodup es = true → (n, t) ∈ es → es.lookup n = some t := by
  intro es
  induction es with
  | nil => intro n t _ h; simp at h
  | cons hd tl ih =>
    intro n t hnd hmem
    obtain ⟨n', t'⟩ := hd
    simp only [keysNodup, Bool.and_eq_true, Bool.not_eq_true'] at hnd
    obtain ⟨hany, hnd'⟩ := hnd
    rcases List.mem_cons.mp hmem with heq | hmem'
    · obtain ⟨rfl, rfl⟩ := Prod.mk.injEq .. ▸ heq
      simp [List.lookup, beq_self_eq_true]
    · have hne : (n == n') = false := by
        have := List.any_eq_false.mp hany (n, t) hmem'
        simpa using this
      simp only [List.lookup, hne]
      exact ih hnd' hmem'

theorem wfb_go_mem :
    ∀ {es : List (String × FSTree)}, FSTree.wfb.go es = true →
      ∀ p ∈ es, p.2.wfb = true := by
  intro es
  induction es with
  | nil => intro _ p hp; simp at hp
  | cons hd tl ih =>
    intro h p hp
    obtain ⟨n, t⟩ := hd
    simp only [FSTree.wfb.go, Bool.and_eq_true] at h
    rcases List.mem_cons.mp hp with rfl | hp'
    · exact h.1
    · exact ih h.2 p hp'

theorem wfb_dir_elim {m : Nat} {es : List (String × FSTree)}
    (h : (FSTree.dir m es).wfb = true) :
    keysNodup es = true ∧ ∀ p ∈ es, p.2.wfb = true := by
  simp only [FSTree.wfb, Bool.and_eq_true] at h
  exact ⟨h.1, wfb_go_mem h.2⟩

/-- A regular file appears in the `rglob`-with-`is_file` enumeration of a
well-formed tree exactly when it is resolvable at that (nonempty) relative
path with that content. -/
theorem mem_rglobFiles_iff :
    ∀ t : FSTree, t.wfb = true → ∀ (p : List String) (c : Bytes),
      ((p, c) ∈ rglobFiles t ↔ p ≠ [] ∧ t.getPath p = some (.file c)) :=
  FSTree.inductionOn _
    (fun d _ p c => by
      constructor
      · intro h
        simp [rglobFiles, FSTree.rglobEntries] at h
      · rintro ⟨hne, hgp⟩
        cases p with
        | nil => exact absurd rfl hne
        | cons a as => simp [FSTree.getPath] at hgp)
    (fun m es ih hwf p c => by
      obtain ⟨hnd, hch⟩ := wfb_dir_elim hwf
      rw [mem_rglobFiles_iff_entries]
      show (p, FSTree.file c) ∈ FSTree.rglobEntries.go es ↔ _
      rw [mem_rglob_go]
      constructor
      · rintro ⟨n, t, hmem, (⟨rfl, rfl⟩ | ⟨p', rfl, hp'⟩)⟩
        · refine ⟨by simp, ?_⟩
          have hlk := lookup_eq_some_of_mem_nodup hnd hmem
          show FSTree.getPath.goFind es n [] = _
          rw [goFind_of_lookup_some hlk]
          rfl
        · have hfm : (p', c) ∈ rglobFiles t := mem_rglobFiles_iff_entries.mpr hp'
          obtain ⟨hne', hgp⟩ := (ih (n, t) hmem (hch _ hmem) p' c).mp hfm
          have hlk := lookup_eq_some_of_mem_nodup hnd hmem
          refine ⟨by simp, ?_⟩
          show FSTree.getPath.goFind es n p' = _
          rw [goFind_of_lookup_some hlk]
          exact hgp
      · rintro ⟨hne, hgp⟩
        cases p with
        | nil => exact absurd rfl hne
        | cons n p' =>
          replace hgp : FSTree.getPath.goFind es n p' = some (.file c) := hgp
          cases hlk : es.lookup n with
          | none => rw [goFind_of_lookup_none hlk] at hgp; simp at hgp
          | some t =>
            rw [goFind_of_lookup_some hlk] at hgp
            have hmem := mem_of_lookup_eq_some hlk
            cases p' with
            | nil =>
              obtain rfl : t = .file c := by simpa [FSTree.getPath] using hgp
              exact ⟨n, .file c, hmem, Or.inl ⟨rfl, rfl⟩⟩
            | cons b bs =>
              have hfm := (ih (n, t) hmem (hch _ hmem) (b :: bs) c).mpr
                ⟨by simp, hgp⟩
              exact ⟨n, t, hmem,
                Or.inr ⟨b :: bs, rfl, mem_rglobFiles_iff_entries.mp hfm⟩⟩)

/-- C4: for every existing, well-formed customer directory, the archive
produced by `download_generated_code` contains an entry for a path and
content exactly when the tree holds a regular file at that path relative
to the customer root — every file round-trips with identical bytes and no
other entries are added — and the store is left unchanged. -/
theorem C4_archive_round_trip (store : Store) (name : String) (m : Nat)
    (es : List (String × FSTree))
    (hwf : (FSTree.dir m es).wfb = true)
    (hlk : store.lookup name = some (.dir m es)) :
    ∃ zs, download_generated_code store name = (.ok zs, store) ∧
      ∀ p c, ((p, c) ∈ zs ↔ (FSTree.dir m es).getPath p = some (.file c)) := by
  refine ⟨rglobFiles (.dir m es), by simp [download_generated_code, hlk], ?_⟩
  intro p c
  rw [mem_rglobFiles_iff _ hwf p c]
  constructor
  · rintro ⟨-, h⟩
    exact h
  · intro h
    refine ⟨?_, h⟩
    rintro rfl
    simp [FSTree.getPath] at h

/-- C4 witness: a two-level customer tree archives exactly its two regular
files at their relative paths. -/
theorem C4_witness :
    ∃ zs, download_generated_code exStore4 "acme" = (.ok zs, exStore4) ∧
      ∀ p c, ((p, c) ∈ zs ↔ (FSTree.dir 7 exEs4).getPath p = some (.file c)) :=
  C4_archive_round_trip exStore4 "acme" 7 exEs4 rfl rfl

end SapAgent
